import Mathlib

/-!
Verification of the `wradlib.qual` module (data-quality fields for radar data).

The module has four pure numerical functions, embedded here over the real
numbers:

* `beam_height_ft`        — beam height, 4/3 effective Earth radius model
                            (Collier 1996);
* `beam_height_ft_doviak` — beam height, 4/3 model (Doviak 1993);
* `pulse_volume`          — sampling volume of the radar beam per bin;
* `beam_block_frac`       — beam blockage fraction (Bech et al. 2003).

NumPy's elementwise semantics makes each function a scalar map applied
pointwise, so the scalar embedding below covers it.  Out-of-domain behaviour
(negative square-root arguments, arcsin outside `[-1, 1]`, division by zero),
which in NumPy yields NaN through invalid-operation propagation, is modelled
by a second, `Option`-valued embedding (`beam_block_fracC`) where every
fallible primitive returns `none` out of its domain and `none` propagates
through the computation.
-/

open Real

/-- `np.deg2rad` / `np.radians`: degrees to radians conversion. -/
noncomputable def deg2rad (x : ℝ) : ℝ := x * (Real.pi / 180)

/-- `beam_height_ft(ranges, elevations, degrees, re)` from `wradlib/qual.py`:
height of a radar beam above the antenna in the 4/3 effective Earth radius
model, formula from Collier (1996). -/
noncomputable def beam_height_ft (ranges elevations : ℝ) (degrees : Bool)
    (re : ℝ) : ℝ :=
  let elev := if degrees then deg2rad elevations else elevations
  ranges ^ 2 * Real.cos elev ^ 2 / (2 * (4 / 3) * re) +
    ranges * Real.sin elev

/-- The radicand of the square root in `beam_height_ft_doviak`:
`ranges ** 2 + reft ** 2 + 2 * ranges * reft * np.sin(elev)`. -/
noncomputable def doviak_radicand (ranges elev reft : ℝ) : ℝ :=
  ranges ^ 2 + reft ^ 2 + 2 * ranges * reft * Real.sin elev

/-- `beam_height_ft_doviak(ranges, elevations, degrees, re)` from
`wradlib/qual.py`: beam height in the 4/3 model, formula from Doviak (1993),
with `reft = (4. / 3.) * re`. -/
noncomputable def beam_height_ft_doviak (ranges elevations : ℝ) (degrees : Bool)
    (re : ℝ) : ℝ :=
  let elev := if degrees then deg2rad elevations else elevations
  let reft := (4 / 3) * re
  Real.sqrt (doviak_radicand ranges elev reft) - reft

/-- `pulse_volume(ranges, h, theta)` from `wradlib/qual.py`:
`np.pi * h * (ranges ** 2) * (np.tan(np.radians(theta))) ** 2`. -/
noncomputable def pulse_volume (ranges h theta : ℝ) : ℝ :=
  Real.pi * h * ranges ^ 2 * Real.tan (deg2rad theta) ^ 2

/-- `beam_block_frac(Th, Bh, a)` from `wradlib/qual.py` (Bech et al. 2003,
Eqn 2 and Appendix), as a total real-valued map (Lean's `Real.sqrt`,
`Real.arcsin` and division are total). -/
noncomputable def beam_block_frac (Th Bh a : ℝ) : ℝ :=
  let y := Th - Bh
  let Numer := y * Real.sqrt (a ^ 2 - y ^ 2) +
    a ^ 2 * Real.arcsin (y / a) + Real.pi * a ^ 2 / 2
  let Denom := Real.pi * a ^ 2
  Numer / Denom

/-- Checked square root: `none` on negative arguments, where IEEE/NumPy
`np.sqrt` returns NaN. -/
noncomputable def sqrtC (x : ℝ) : Option ℝ :=
  if x < 0 then none else some (Real.sqrt x)

/-- Checked arcsine: `none` outside `[-1, 1]`, where IEEE/NumPy `np.arcsin`
returns NaN. -/
noncomputable def arcsinC (x : ℝ) : Option ℝ :=
  if x < -1 ∨ 1 < x then none else some (Real.arcsin x)

/-- Checked division: `none` for a zero divisor.  (In NumPy `y / 0` is
`±inf` or NaN; in `beam_block_frac` every division result either feeds
`np.arcsin`, which maps `±inf` and NaN to NaN, or is the final quotient whose
numerator is then already NaN, so `none` is the faithful outcome in all
places this is used.) -/
noncomputable def divC (x y : ℝ) : Option ℝ :=
  if y = 0 then none else some (x / y)

/-- `beam_block_frac` with NaN-producing primitives made explicit: any
invalid intermediate operation yields `none`, and `none` propagates, exactly
as NaN propagates through NumPy arithmetic. -/
noncomputable def beam_block_fracC (Th Bh a : ℝ) : Option ℝ := do
  let y := Th - Bh
  let s ← sqrtC (a ^ 2 - y ^ 2)
  let q ← divC y a
  let asn ← arcsinC q
  let Numer := y * s + a ^ 2 * asn + Real.pi * a ^ 2 / 2
  divC Numer (Real.pi * a ^ 2)

/-- Agreement of two quantities to within a relative tolerance `tol`
(formalising the spec's "agree to within a relative tolerance"):
`|x - y| ≤ tol · max(|x|, |y|)`. -/
def relClose (tol x y : ℝ) : Prop :=
  |x - y| ≤ tol * max |x| |y|

/-- C4: `beam_height_ft` returns
`(r² · cos² elev) / (2 · (4/3) · re) + r · sin elev` with `elev` the
deg-to-rad converted elevation when `degrees` is true and the raw elevation
otherwise; in particular, at elevation `0` it returns `r² / (2 · (4/3) · re)`. -/
theorem beam_height_ft_formula (r e re : ℝ) (d : Bool) :
    beam_height_ft r e d re =
      r ^ 2 * Real.cos (if d then deg2rad e else e) ^ 2 / (2 * (4 / 3) * re) +
        r * Real.sin (if d then deg2rad e else e) ∧
    beam_height_ft r 0 d re = r ^ 2 / (2 * (4 / 3) * re) := by
  constructor
  · rfl
  · have h0 : (if d then deg2rad 0 else 0) = (0 : ℝ) := by
      cases d <;> simp [deg2rad]
    show r ^ 2 * Real.cos (if d then deg2rad 0 else 0) ^ 2 / (2 * (4 / 3) * re) +
        r * Real.sin (if d then deg2rad 0 else 0) = r ^ 2 / (2 * (4 / 3) * re)
    rw [h0, Real.cos_zero, Real.sin_zero]
    ring

/-- C6: both beam-height functions are invariant to the `degrees` flag when
the elevation is pre-converted to radians:
`f r (deg2rad e) false re = f r e true re`. -/
theorem beam_height_degrees_flag_invariant (r e re : ℝ) :
    beam_height_ft r (deg2rad e) false re = beam_height_ft r e true re ∧
    beam_height_ft_doviak r (deg2rad e) false re =
      beam_height_ft_doviak r e true re := by
  constructor <;> rfl

/-- C8: `pulse_volume` is homogeneous of degree 2 in the range argument:
doubling the range quadruples the volume, and the volume at range 0 is 0. -/
theorem pulse_volume_quadratic_in_range (r h theta : ℝ) :
    pulse_volume (2 * r) h theta = 4 * pulse_volume r h theta ∧
    pulse_volume 0 h theta = 0 := by
  constructor <;> · show _ = _; unfold pulse_volume; ring

/-- C5: in `beam_height_ft_doviak`, the expression under the square root
equals `(r + reft·sin elev)² + reft²·cos² elev` with `reft = (4/3)·re`, hence
is non-negative for every range `r ≥ 0`, real elevation and positive earth
radius: the square root argument is always in-domain. -/
theorem doviak_radicand_nonneg (r elev re : ℝ) (hr : 0 ≤ r) (hre : 0 < re) :
    doviak_radicand r elev ((4 / 3) * re) =
      (r + (4 / 3) * re * Real.sin elev) ^ 2 +
        ((4 / 3) * re) ^ 2 * Real.cos elev ^ 2 ∧
    0 ≤ doviak_radicand r elev ((4 / 3) * re) := by
  have hsc := Real.sin_sq_add_cos_sq elev
  have heq : doviak_radicand r elev ((4 / 3) * re) =
      (r + (4 / 3) * re * Real.sin elev) ^ 2 +
        ((4 / 3) * re) ^ 2 * Real.cos elev ^ 2 := by
    unfold doviak_radicand
    linear_combination (-((4 / 3) * re) ^ 2) * hsc
  refine ⟨heq, heq ▸ by positivity⟩

/-- Witness for C5 at `r = 1`, `elev = 0`, `re = 1`. -/
theorem doviak_radicand_nonneg_witness :
    (0 : ℝ) ≤ 1 ∧ (0 : ℝ) < 1 ∧
      (doviak_radicand 1 0 ((4 / 3) * 1) =
        (1 + (4 / 3) * 1 * Real.sin 0) ^ 2 +
          ((4 / 3) * 1) ^ 2 * Real.cos 0 ^ 2 ∧
      0 ≤ doviak_radicand 1 0 ((4 / 3) * 1)) :=
  ⟨by norm_num, by norm_num, doviak_radicand_nonneg 1 0 1 (by norm_num) (by norm_num)⟩

/-- C10: with half-power radius `a = 0` the blockage-fraction computation is
invalid for every terrain and beam height — the division `y / a` feeding
`arcsin` (and the final division by `π·a² = 0`) has a zero divisor — so the
checked evaluation returns `none` (NaN in NumPy) even at `Th = Bh`: the
anchor value `0.5` at `y = 0` needs the precondition `a ≠ 0`. -/
theorem beam_block_fracC_zero_radius (Th Bh : ℝ) :
    beam_block_fracC Th Bh 0 = none := by
  unfold beam_block_fracC
  cases h : sqrtC ((0 : ℝ) ^ 2 - (Th - Bh) ^ 2) <;> simp [h, divC]

/-- Counterexample to C2 as stated: at `Th = Bh = 0`, `a = -1` we have
`|Th - Bh| > a`, yet no intermediate operation is invalid and the function
returns the ordinary value `1/2`, not NaN. -/
theorem beam_block_fracC_some_at_neg_radius :
    (-1 : ℝ) < |(0 : ℝ) - 0| ∧ beam_block_fracC 0 0 (-1) = some (1 / 2) := by
  constructor
  · norm_num
  · unfold beam_block_fracC
    norm_num [sqrtC, divC, arcsinC, Real.sqrt_one, Real.arcsin_zero,
      Real.pi_ne_zero]
    field_simp
    ring

/-- C2 (amended with `0 ≤ a`): for a non-negative half-power radius, whenever
`|Th - Bh| > a` the radicand `a² - y²` is negative, the checked square root
is invalid, and the invalid value propagates: the function returns `none`
(NaN in NumPy), with no special-case branch and no exception. -/
theorem beam_block_fracC_none_of_offset_gt_radius (Th Bh a : ℝ)
    (ha : 0 ≤ a) (h : a < |Th - Bh|) :
    beam_block_fracC Th Bh a = none := by
  have hneg : a ^ 2 - (Th - Bh) ^ 2 < 0 := by
    nlinarith [sq_abs (Th - Bh), abs_nonneg (Th - Bh)]
  have hs : sqrtC (a ^ 2 - (Th - Bh) ^ 2) = none := by
    simp [sqrtC, hneg]
  unfold beam_block_fracC
  simp [hs]

/-- Witness for the amended C2 at `Th = 1`, `Bh = 0`, `a = 0`. -/
theorem beam_block_fracC_none_of_offset_gt_radius_witness :
    (0 : ℝ) ≤ 0 ∧ (0 : ℝ) < |(1 : ℝ) - 0| ∧ beam_block_fracC 1 0 0 = none :=
  ⟨le_refl 0, by norm_num,
    beam_block_fracC_none_of_offset_gt_radius 1 0 0 (le_refl 0) (by norm_num)⟩

/-- On `[0, π/2]`, `sin t · cos t + t` lies in `[0, π/2]`. -/
theorem sin_mul_cos_add_self_bounds (t : ℝ) (h0 : 0 ≤ t)
    (h : t ≤ Real.pi / 2) :
    0 ≤ Real.sin t * Real.cos t + t ∧
      Real.sin t * Real.cos t + t ≤ Real.pi / 2 := by
  have hπ := Real.pi_pos
  constructor
  · have hs : 0 ≤ Real.sin t :=
      Real.sin_nonneg_of_nonneg_of_le_pi h0 (by linarith)
    have hc : 0 ≤ Real.cos t := Real.cos_nonneg_of_mem_Icc ⟨by linarith, h⟩
    nlinarith
  · have h1 : Real.sin (2 * t) ≤ Real.pi - 2 * t := by
      calc Real.sin (2 * t) = Real.sin (Real.pi - 2 * t) :=
            (Real.sin_pi_sub _).symm
        _ ≤ Real.pi - 2 * t := Real.sin_le (by linarith)
    have h2 : Real.sin (2 * t) = 2 * (Real.sin t * Real.cos t) := by
      rw [Real.sin_two_mul]; ring
    linarith

/-- On `[-π/2, π/2]`, `|sin t · cos t + t| ≤ π/2` (the odd extension of the
previous bound). -/
theorem abs_sin_mul_cos_add_self_le (t : ℝ) (h : |t| ≤ Real.pi / 2) :
    |Real.sin t * Real.cos t + t| ≤ Real.pi / 2 := by
  rcases abs_le.mp h with ⟨hl, hr⟩
  rcases le_or_lt 0 t with h0 | h0
  · have hb := sin_mul_cos_add_self_bounds t h0 hr
    rw [abs_le]
    exact ⟨by nlinarith [Real.pi_pos], hb.2⟩
  · have hb := sin_mul_cos_add_self_bounds (-t) (by linarith) (by linarith)
    rw [Real.sin_neg, Real.cos_neg, neg_mul] at hb
    rw [abs_le]
    constructor <;> linarith [hb.1, hb.2]

/-- C1: for a positive half-power radius and terrain-to-beam offset at most
the radius, the partial beam blockage fraction lies in `[0, 1]`. -/
theorem beam_block_frac_mem_unit_interval (Th Bh a : ℝ) (ha : 0 < a)
    (hy : |Th - Bh| ≤ a) : beam_block_frac Th Bh a ∈ Set.Icc (0 : ℝ) 1 := by
  have hπ := Real.pi_pos
  have ha' : a ≠ 0 := ne_of_gt ha
  set y := Th - Bh with hydef
  rcases abs_le.mp hy with ⟨hyl, hyr⟩
  have h1 : -1 ≤ y / a := by rw [le_div_iff ha]; linarith
  have h2 : y / a ≤ 1 := by rw [div_le_one ha]; exact hyr
  set t := Real.arcsin (y / a) with htdef
  have hsin : Real.sin t = y / a := Real.sin_arcsin h1 h2
  have hcos : Real.cos t = Real.sqrt (1 - (y / a) ^ 2) := Real.cos_arcsin _
  have hyat : y = a * Real.sin t := by rw [hsin]; field_simp
  have hsplit : a ^ 2 - y ^ 2 = a ^ 2 * (1 - (y / a) ^ 2) := by
    field_simp
  have hsqrt : Real.sqrt (a ^ 2 - y ^ 2) = a * Real.cos t := by
    rw [hcos, hsplit, Real.sqrt_mul (sq_nonneg a), Real.sqrt_sq ha.le]
  have hval : beam_block_frac Th Bh a =
      (Real.sin t * Real.cos t + t + Real.pi / 2) / Real.pi := by
    show (y * Real.sqrt (a ^ 2 - y ^ 2) + a ^ 2 * Real.arcsin (y / a) +
        Real.pi * a ^ 2 / 2) / (Real.pi * a ^ 2) = _
    rw [hsqrt, ← htdef, hyat]
    field_simp
    ring
  have hts : |t| ≤ Real.pi / 2 := by
    rw [htdef]
    exact abs_le.mpr ⟨Real.neg_pi_div_two_le_arcsin _,
      Real.arcsin_le_pi_div_two _⟩
  have hkey := abs_le.mp (abs_sin_mul_cos_add_self_le t hts)
  rw [Set.mem_Icc, hval]
  constructor
  · apply div_nonneg _ hπ.le
    linarith [hkey.1]
  · rw [div_le_one hπ]
    linarith [hkey.2]

/-- Witness for C1 at `Th = 0`, `Bh = 0`, `a = 1`. -/
theorem beam_block_frac_mem_unit_interval_witness :
    (0 : ℝ) < 1 ∧ |(0 : ℝ) - 0| ≤ 1 ∧
      beam_block_frac 0 0 1 ∈ Set.Icc (0 : ℝ) 1 :=
  ⟨by norm_num, by norm_num,
    beam_block_frac_mem_unit_interval 0 0 1 (by norm_num) (by norm_num)⟩

/-- Counterexample to C7 as stated (quantified over all `a`): at `a = 0` and
`Th = Bh = 0` (so `y = 0`), the checked evaluation is invalid (`none`, NaN in
NumPy) rather than `0.5`, and the total real-valued embedding yields `0`,
also not `0.5`. -/
theorem beam_block_frac_anchor_fails_at_zero_radius :
    beam_block_fracC 0 0 0 = none ∧ beam_block_frac 0 0 0 ≠ 1 / 2 := by
  constructor
  · unfold beam_block_fracC
    cases h : sqrtC ((0 : ℝ) ^ 2 - ((0 : ℝ) - 0) ^ 2) <;> simp [h, divC]
  · show ((0 - 0) * Real.sqrt (0 ^ 2 - ((0 : ℝ) - 0) ^ 2) +
      0 ^ 2 * Real.arcsin ((0 - 0) / 0) + Real.pi * 0 ^ 2 / 2) /
        (Real.pi * 0 ^ 2) ≠ 1 / 2
    norm_num

/-- C7 (amended with `a ≠ 0`): for a nonzero half-power radius the blockage
fraction is exactly `1/2` at `y = 0`, exactly `1` at `y = a`, and exactly `0`
at `y = -a`. -/
theorem beam_block_frac_anchor_values (Bh a : ℝ) (ha : a ≠ 0) :
    beam_block_frac Bh Bh a = 1 / 2 ∧
    beam_block_frac (Bh + a) Bh a = 1 ∧
    beam_block_frac (Bh - a) Bh a = 0 := by
  have hπ := Real.pi_ne_zero
  refine ⟨?_, ?_, ?_⟩
  · show ((Bh - Bh) * Real.sqrt (a ^ 2 - (Bh - Bh) ^ 2) +
      a ^ 2 * Real.arcsin ((Bh - Bh) / a) + Real.pi * a ^ 2 / 2) /
        (Real.pi * a ^ 2) = 1 / 2
    rw [sub_self]
    simp [Real.arcsin_zero]
    field_simp
    ring
  · show ((Bh + a - Bh) * Real.sqrt (a ^ 2 - (Bh + a - Bh) ^ 2) +
      a ^ 2 * Real.arcsin ((Bh + a - Bh) / a) + Real.pi * a ^ 2 / 2) /
        (Real.pi * a ^ 2) = 1
    rw [add_sub_cancel_left, sub_self, Real.sqrt_zero, div_self ha,
      Real.arcsin_one]
    field_simp
    ring
  · show ((Bh - a - Bh) * Real.sqrt (a ^ 2 - (Bh - a - Bh) ^ 2) +
      a ^ 2 * Real.arcsin ((Bh - a - Bh) / a) + Real.pi * a ^ 2 / 2) /
        (Real.pi * a ^ 2) = 0
    rw [sub_sub_cancel_left, neg_sq, sub_self, Real.sqrt_zero, neg_div,
      div_self ha, Real.arcsin_neg, Real.arcsin_one]
    field_simp
    ring

/-- Witness for the amended C7 at `Bh = 0`, `a = 1`. -/
theorem beam_block_frac_anchor_values_witness :
    (1 : ℝ) ≠ 0 ∧
      (beam_block_frac 0 0 1 = 1 / 2 ∧ beam_block_frac (0 + 1) 0 1 = 1 ∧
        beam_block_frac (0 - 1) 0 1 = 0) :=
  ⟨one_ne_zero, beam_block_frac_anchor_values 0 1 one_ne_zero⟩

/-- C9: swapping terrain height and beam height complements the blockage
fraction: `PBB(Th, Bh, a) + PBB(Bh, Th, a) = 1`, since the odd terms
`y·√(a² - y²)` and `a²·arcsin(y/a)` cancel between `y` and `-y`. -/
theorem beam_block_frac_swap_complement (Th Bh a : ℝ) (ha : 0 < a)
    (hy : |Th - Bh| ≤ a) :
    beam_block_frac Th Bh a + beam_block_frac Bh Th a = 1 := by
  have hπ := Real.pi_ne_zero
  have ha' : a ≠ 0 := ne_of_gt ha
  show ((Th - Bh) * Real.sqrt (a ^ 2 - (Th - Bh) ^ 2) +
      a ^ 2 * Real.arcsin ((Th - Bh) / a) + Real.pi * a ^ 2 / 2) /
        (Real.pi * a ^ 2) +
    ((Bh - Th) * Real.sqrt (a ^ 2 - (Bh - Th) ^ 2) +
      a ^ 2 * Real.arcsin ((Bh - Th) / a) + Real.pi * a ^ 2 / 2) /
        (Real.pi * a ^ 2) = 1
  have h1 : Bh - Th = -(Th - Bh) := by ring
  rw [h1, neg_sq, neg_div, Real.arcsin_neg]
  field_simp
  ring

/-- Witness for C9 at `Th = 1`, `Bh = 0`, `a = 2`. -/
theorem beam_block_frac_swap_complement_witness :
    (0 : ℝ) < 2 ∧ |(1 : ℝ) - 0| ≤ 2 ∧
      beam_block_frac 1 0 2 + beam_block_frac 0 1 2 = 1 :=
  ⟨by norm_num, by norm_num,
    beam_block_frac_swap_complement 1 0 2 (by norm_num) (by norm_num)⟩

/-- Counterexample to C3 as stated: at range 50000 m and elevation 0° (with
`degrees = true`, earth radius 6371000 m) the two beam-height models give
`937500/6371 ≈ 147.1512 m` and `≈ 147.1499 m`; the relative difference is
about `8.66·10⁻⁶`, which exceeds the claimed tolerance `10⁻⁶`. -/
theorem beam_height_models_disagree_at_tol_1e6 :
    ¬ relClose (1 / 1000000) (beam_height_ft 50000 0 true 6371000)
      (beam_height_ft_doviak 50000 0 true 6371000) := by
  have hd0 : deg2rad 0 = 0 := by simp [deg2rad]
  have h1eq : beam_height_ft 50000 0 true 6371000 = 937500 / 6371 := by
    show (50000 : ℝ) ^ 2 * Real.cos (deg2rad 0) ^ 2 / (2 * (4 / 3) * 6371000) +
        50000 * Real.sin (deg2rad 0) = 937500 / 6371
    rw [hd0, Real.cos_zero, Real.sin_zero]
    norm_num
  have h2eq : beam_height_ft_doviak 50000 0 true 6371000 =
      Real.sqrt (649456756000000 / 9) - 25484000 / 3 := by
    show Real.sqrt (doviak_radicand 50000 (deg2rad 0) ((4 / 3) * 6371000)) -
        (4 / 3) * 6371000 = _
    rw [hd0]
    unfold doviak_radicand
    rw [Real.sin_zero]
    norm_num
  have hub : Real.sqrt (649456756000000 / 9) <
      25484000 / 3 + 937500 / 6371 - 1 / 1000 := by
    rw [Real.sqrt_lt' (by norm_num)]
    norm_num
  have hlb : (25484000 : ℝ) / 3 ≤ Real.sqrt (649456756000000 / 9) := by
    rw [Real.le_sqrt (by norm_num) (by norm_num)]
    norm_num
  intro hcl
  unfold relClose at hcl
  rw [h1eq, h2eq] at hcl
  set S := Real.sqrt (649456756000000 / 9) with hS
  have habs_d : |(937500 : ℝ) / 6371 - (S - 25484000 / 3)| =
      937500 / 6371 - (S - 25484000 / 3) := abs_of_nonneg (by linarith)
  have habs_1 : |(937500 : ℝ) / 6371| = 937500 / 6371 :=
    abs_of_nonneg (by norm_num)
  have habs_2 : |S - 25484000 / 3| = S - 25484000 / 3 :=
    abs_of_nonneg (by linarith)
  rw [habs_d, habs_1, habs_2] at hcl
  have hmax : max ((937500 : ℝ) / 6371) (S - 25484000 / 3) ≤ 937500 / 6371 :=
    max_le le_rfl (by linarith)
  have hrhs : (1 : ℝ) / 1000000 * max (937500 / 6371) (S - 25484000 / 3) ≤
      1 / 1000000 * (937500 / 6371) :=
    mul_le_mul_of_nonneg_left hmax (by norm_num)
  linarith

/-- Quadratic upper estimate of the square root:
`√(A² + B) ≤ A + B/(2A)` for `A > 0`, `B ≥ 0`. -/
theorem sqrt_sq_add_le (A B : ℝ) (hA : 0 < A) (hB : 0 ≤ B) :
    Real.sqrt (A ^ 2 + B) ≤ A + B / (2 * A) := by
  rw [Real.sqrt_le_left (by positivity)]
  have hexp : (A + B / (2 * A)) ^ 2 = A ^ 2 + B + (B / (2 * A)) ^ 2 := by
    field_simp
    ring
  nlinarith [sq_nonneg (B / (2 * A))]

/-- Quadratic lower estimate of the square root:
`A + B/(2A) - B²/(8A³) ≤ √(A² + B)` for `A > 0`, `0 ≤ B ≤ 4A²`. -/
theorem le_sqrt_sq_add (A B : ℝ) (hA : 0 < A) (hB : 0 ≤ B)
    (hB4 : B ≤ 4 * A ^ 2) :
    A + B / (2 * A) - B ^ 2 / (8 * A ^ 3) ≤ Real.sqrt (A ^ 2 + B) := by
  have hd : B ^ 2 / (8 * A ^ 3) ≤ B / (2 * A) := by
    rw [div_le_div_iff (by positivity) (by positivity)]
    nlinarith [mul_nonneg (mul_nonneg hA.le hB) (sub_nonneg.2 hB4)]
  have hx : 0 ≤ A + B / (2 * A) - B ^ 2 / (8 * A ^ 3) := by
    have hq : 0 ≤ B / (2 * A) := by positivity
    linarith
  rw [Real.le_sqrt hx (by positivity)]
  have hexp : (A + B / (2 * A) - B ^ 2 / (8 * A ^ 3)) ^ 2 =
      A ^ 2 + B - B ^ 3 * (8 * A ^ 2 - B) / (64 * A ^ 6) := by
    field_simp
    ring
  rw [hexp]
  have hnn : 0 ≤ B ^ 3 * (8 * A ^ 2 - B) / (64 * A ^ 6) := by
    apply div_nonneg _ (by positivity)
    exact mul_nonneg (pow_nonneg hB 3) (by nlinarith)
  linarith

/-- Core gap estimate between the parabolic height model `B/(2R) + p` and
the square-root height model `√((R+p)² + B) - R`: the gap is non-negative
and at most `tol` times the parabolic value, provided `B ≤ 2·tol·R²`. -/
theorem sqrt_model_gap (R p B tol : ℝ) (hR : 0 < R) (hp : 0 ≤ p)
    (hB : 0 ≤ B) (htol : 0 ≤ tol) (htol1 : tol ≤ 1)
    (hB1 : B ≤ 2 * tol * R ^ 2) :
    0 ≤ B / (2 * R) + p - (Real.sqrt ((R + p) ^ 2 + B) - R) ∧
    B / (2 * R) + p - (Real.sqrt ((R + p) ^ 2 + B) - R) ≤
      tol * (B / (2 * R) + p) := by
  set A := R + p with hA
  have hApos : 0 < A := by rw [hA]; linarith
  have hAR : R ≤ A := by rw [hA]; linarith
  have hB4 : B ≤ 4 * A ^ 2 := by
    have hsq : R ^ 2 ≤ A ^ 2 := pow_le_pow_left hR.le hAR 2
    nlinarith [mul_nonneg (sub_nonneg.2 htol1) (sq_nonneg R)]
  have hub := sqrt_sq_add_le A B hApos hB
  have hlb := le_sqrt_sq_add A B hApos hB hB4
  have hmono : B / (2 * A) ≤ B / (2 * R) := by
    rw [div_le_div_iff (by linarith) (by linarith)]
    nlinarith [mul_nonneg hB (sub_nonneg.2 hAR)]
  constructor
  · -- √ ≤ A + B/(2A) = R + p + B/(2A), so the gap is ≥ B/(2R) - B/(2A) ≥ 0
    have hAe : A = R + p := hA
    linarith
  · -- gap ≤ B/(2R) - B/(2A) + B²/(8A³) ≤ tol·(B/(2R) + p)
    have hAe : A = R + p := hA
    have t1 : 0 ≤ 2 * tol * R * A - B := by
      nlinarith [mul_nonneg (mul_nonneg htol hR.le) (sub_nonneg.2 hAR)]
    have t2 : 0 ≤ 4 * tol * A ^ 3 - B * R := by
      have hcube : R ^ 3 ≤ A ^ 3 := pow_le_pow_left hR.le hAR 3
      have hm3 : 0 ≤ tol * (A ^ 3 - R ^ 3) :=
        mul_nonneg htol (sub_nonneg.2 hcube)
      have hm4 : B * R ≤ 2 * tol * R ^ 2 * R :=
        mul_le_mul_of_nonneg_right hB1 hR.le
      have hm5 : 0 ≤ tol * R ^ 3 := mul_nonneg htol (pow_nonneg hR.le 3)
      nlinarith
    have m1 : 0 ≤ 4 * p * A ^ 2 * (2 * tol * R * A - B) :=
      mul_nonneg (by positivity) t1
    have m2 : 0 ≤ B * (4 * tol * A ^ 3 - B * R) := mul_nonneg hB t2
    have hcc : 4 * B * A ^ 3 - 4 * B * R * A ^ 2 = 4 * B * A ^ 2 * p := by
      rw [hA]; ring
    have hpoly : 4 * B * A ^ 3 - 4 * B * R * A ^ 2 + B ^ 2 * R ≤
        4 * tol * A ^ 3 * B + 8 * tol * R * A ^ 3 * p := by
      nlinarith [m1, m2, hcc]
    have hstep : B / (2 * R) - B / (2 * A) + B ^ 2 / (8 * A ^ 3) ≤
        tol * (B / (2 * R) + p) := by
      rw [← sub_nonneg]
      have hexpand : tol * (B / (2 * R) + p) -
          (B / (2 * R) - B / (2 * A) + B ^ 2 / (8 * A ^ 3)) =
          (4 * tol * A ^ 3 * B + 8 * tol * R * A ^ 3 * p -
            (4 * B * A ^ 3 - 4 * B * R * A ^ 2 + B ^ 2 * R)) /
            (8 * R * A ^ 3) := by
        field_simp
        ring
      rw [hexpand]
      apply div_nonneg _ (by positivity)
      linarith
    linarith

/-- C3 (amended: relative tolerance `3·10⁻⁵` instead of `10⁻⁶`): for every
range in `[0, 50000]` m and elevation in `[0, 10]` degrees (`degrees = true`,
earth radius 6371000 m), `beam_height_ft` and `beam_height_ft_doviak` agree
to within a relative tolerance of `3·10⁻⁵`.  (The actual worst case on this
domain is ≈ 1.7·10⁻⁵, so the claimed `10⁻⁶` is unattainable.) -/
theorem beam_height_models_agree_3e5 (r e : ℝ) (hr0 : 0 ≤ r)
    (hr : r ≤ 50000) (he0 : 0 ≤ e) (he : e ≤ 10) :
    relClose (3 / 100000) (beam_height_ft r e true 6371000)
      (beam_height_ft_doviak r e true 6371000) := by
  have hπ := Real.pi_pos
  have hel0 : 0 ≤ deg2rad e := by
    unfold deg2rad
    positivity
  have helπ : deg2rad e ≤ Real.pi := by
    unfold deg2rad
    nlinarith
  set s := Real.sin (deg2rad e) with hs
  set c := Real.cos (deg2rad e) with hc
  have hs0 : 0 ≤ s := Real.sin_nonneg_of_nonneg_of_le_pi hel0 helπ
  have hsc : s ^ 2 + c ^ 2 = 1 := Real.sin_sq_add_cos_sq (deg2rad e)
  set R : ℝ := (4 / 3) * 6371000 with hR
  set p := r * s with hp
  set B := r ^ 2 * c ^ 2 with hB
  have hRpos : (0 : ℝ) < R := by rw [hR]; norm_num
  have hp0 : 0 ≤ p := by rw [hp]; exact mul_nonneg hr0 hs0
  have hB0 : 0 ≤ B := by rw [hB]; positivity
  have hB1 : B ≤ 2 * (3 / 100000) * R ^ 2 := by
    rw [hB, hR]
    nlinarith [sq_nonneg (r * s), hsc]
  have hgap := sqrt_model_gap R p B (3 / 100000) hRpos hp0 hB0
    (by norm_num) (by norm_num) hB1
  have h1val : beam_height_ft r e true 6371000 = B / (2 * R) + p := by
    show r ^ 2 * Real.cos (deg2rad e) ^ 2 / (2 * (4 / 3) * 6371000) +
        r * Real.sin (deg2rad e) = B / (2 * R) + p
    rw [← hc, ← hs, hB, hp, hR]
    ring
  have hrad : doviak_radicand r (deg2rad e) R = (R + p) ^ 2 + B := by
    unfold doviak_radicand
    rw [← hs, hp, hB]
    linear_combination (-(r ^ 2)) * hsc
  have h2val : beam_height_ft_doviak r e true 6371000 =
      Real.sqrt ((R + p) ^ 2 + B) - R := by
    show Real.sqrt (doviak_radicand r (deg2rad e) ((4 / 3) * 6371000)) -
        (4 / 3) * 6371000 = _
    rw [← hR, hrad]
  have hH2le : beam_height_ft_doviak r e true 6371000 ≤
      beam_height_ft r e true 6371000 := by
    rw [h1val, h2val]
    linarith [hgap.1]
  have hH20 : 0 ≤ beam_height_ft_doviak r e true 6371000 := by
    rw [h2val]
    have hsq : R + p ≤ Real.sqrt ((R + p) ^ 2 + B) := by
      rw [Real.le_sqrt (by linarith) (by nlinarith)]
      linarith
    linarith
  have hH10 : 0 ≤ beam_height_ft r e true 6371000 := le_trans hH20 hH2le
  unfold relClose
  have hxy : |beam_height_ft r e true 6371000 -
      beam_height_ft_doviak r e true 6371000| =
      beam_height_ft r e true 6371000 -
        beam_height_ft_doviak r e true 6371000 :=
    abs_of_nonneg (by linarith)
  rw [hxy]
  have hcore : beam_height_ft r e true 6371000 -
      beam_height_ft_doviak r e true 6371000 ≤
      3 / 100000 * beam_height_ft r e true 6371000 := by
    rw [h1val, h2val]
    linarith [hgap.2]
  refine le_trans hcore ?_
  have habs1 : |beam_height_ft r e true 6371000| =
      beam_height_ft r e true 6371000 := abs_of_nonneg hH10
  have hm := mul_le_mul_of_nonneg_left
    (le_max_left |beam_height_ft r e true 6371000|
      |beam_height_ft_doviak r e true 6371000|)
    (by norm_num : (0 : ℝ) ≤ 3 / 100000)
  calc 3 / 100000 * beam_height_ft r e true 6371000
      = 3 / 100000 * |beam_height_ft r e true 6371000| := by rw [habs1]
    _ ≤ 3 / 100000 * max |beam_height_ft r e true 6371000|
        |beam_height_ft_doviak r e true 6371000| := hm

/-- Witness for the amended C3 at `r = 50000`, `e = 0`. -/
theorem beam_height_models_agree_3e5_witness :
    (0 : ℝ) ≤ 50000 ∧ (50000 : ℝ) ≤ 50000 ∧ (0 : ℝ) ≤ 0 ∧ (0 : ℝ) ≤ 10 ∧
      relClose (3 / 100000) (beam_height_ft 50000 0 true 6371000)
        (beam_height_ft_doviak 50000 0 true 6371000) :=
  ⟨by norm_num, le_refl _, le_refl _, by norm_num,
    beam_height_models_agree_3e5 50000 0 (by norm_num) (le_refl _)
      (le_refl _) (by norm_num)⟩
